import Mathlib

/-!
Verification of the BDD Playwright test framework's core subsystem:
error classification (`enhanceError` in src/utils/testHelpers.ts),
screenshot naming, cleanup and lifecycle tracking (src/config/world.ts),
and report correlation (scripts/generateAllureResults.js).

Strings are modelled as `List Char` (`Str`); JavaScript/TypeScript string
operations (regex replace, includes, endsWith, toLowerCase) are embedded as
executable functions on character lists. All inputs relevant here are ASCII,
where these embeddings agree with the JS semantics.
-/

namespace BDD

/-- Strings modelled as lists of characters. -/
abbrev Str := List Char

/-- `s.includes(pat)` would start matching at the head: `startsWithL s pat`
is true when `pat` is a prefix of `s` (JS `String.prototype.startsWith`). -/
def startsWithL : Str → Str → Bool
  | _, [] => true
  | [], _ :: _ => false
  | c :: s, p :: ps => c = p && startsWithL s ps

/-- JS `s.includes(pat)`: `pat` occurs as a contiguous substring of `s`. -/
def containsL : Str → Str → Bool
  | [], pat => pat.isEmpty
  | c :: rest, pat => startsWithL (c :: rest) pat || containsL rest pat

/-- JS `s.endsWith(pat)`: `pat` is a suffix of `s`. -/
def endsWithL (s pat : Str) : Bool := startsWithL s.reverse pat.reverse

/-- JS `s.toLowerCase()`, restricted to ASCII (all filenames and normalized
names in this system are ASCII). -/
def toLowerL (s : Str) : Str := s.map Char.toLower

/-- The character class `[a-zA-Z0-9]` of the normalization regexes in
world.ts and generateAllureResults.js. -/
def isAlnumChar (c : Char) : Bool :=
  ('a' ≤ c && c ≤ 'z') || ('A' ≤ c && c ≤ 'Z') || ('0' ≤ c && c ≤ '9')

/-- `.replace(/[^a-zA-Z0-9]/g, '-')`: every character outside the class
becomes a dash. -/
def sanitize (s : Str) : Str := s.map (fun c => if isAlnumChar c then c else '-')

/-- The second replace (regex: one-or-more dashes, global, replaced by a
single dash): each maximal run of dashes collapses to one dash. -/
def collapse : Str → Str
  | [] => []
  | c :: rest =>
    match collapse rest with
    | [] => [c]
    | d :: tail => if c = '-' ∧ d = '-' then d :: tail else c :: d :: tail

/-- `.replace(/^-+|-+$/g, '')`, trailing half: drop the trailing run of
dashes (keeps the head of a nonempty result equal to the input's head). -/
def dropTrailingDashes : Str → Str
  | [] => []
  | c :: rest =>
    match dropTrailingDashes rest with
    | [] => if c = '-' then [] else [c]
    | d :: tail => c :: d :: tail

/-- `.replace(/^-+|-+$/g, '')`: strip the leading and the trailing dash runs. -/
def trimDashes (s : Str) : Str := dropTrailingDashes (s.dropWhile (fun c => c = '-'))

/-- The name-normalization chain of `takeScreenshotForStep` in
src/config/world.ts lines 189-190: replace every character outside
`[a-zA-Z0-9]` with a dash, collapse dash runs, strip leading/trailing dashes. -/
def cleanNameWorld (s : Str) : Str := trimDashes (collapse (sanitize s))

/-- The name-normalization chain of `findScreenshotForStep` in
scripts/generateAllureResults.js lines 24-25 — a regex chain character-identical
to the one in world.ts: replace every character outside `[a-zA-Z0-9]` with a
dash, collapse dash runs, strip leading/trailing dashes. -/
def cleanNameAllure (s : Str) : Str := trimDashes (collapse (sanitize s))

/-- Every character of a normalized name is alphanumeric or a dash. -/
def allOkChars (s : Str) : Bool := s.all (fun c => isAlnumChar c || c = '-')

/-- No two consecutive dashes anywhere in the string. -/
def noDoubleDash : Str → Bool
  | [] => true
  | [_] => true
  | a :: b :: rest => !(a = '-' && b = '-') && noDoubleDash (b :: rest)

/-- The head, if any, is not a dash. -/
def headOk : Str → Bool
  | [] => true
  | c :: _ => c ≠ '-'

/-- The last character, if any, is not a dash. -/
def lastOk : Str → Bool
  | [] => true
  | [c] => c ≠ '-'
  | _ :: c :: rest => lastOk (c :: rest)

/-- JS `s.includes(pat)` lifted to Lean `String`. -/
def containsS (s pat : String) : Bool := containsL s.toList pat.toList

/-- The failure taxonomy: one kind per branch of the classification chain in
`enhanceError` (src/utils/testHelpers.ts lines 10-33). -/
inductive ErrorKind
  | Timeout
  | StaleElement
  | NotVisible
  | Disabled
  | NotClickable
  | NavigationFailure
  | AssertionFailure
  | Unknown
deriving DecidableEq, Repr

/-- The classification chain of `enhanceError` (testHelpers.ts lines 10-33),
branch by branch; each branch of the source appends a distinct category
header, abstracted here as the corresponding `ErrorKind`:
line 10 `error.name === 'TimeoutError' || error.message?.includes('timeout')`,
line 19 `error.name === 'Error' && error.message?.includes('Element is not attached')`,
line 21 `'not visible'`, line 23 `'not enabled' || 'disabled'`,
line 25 `'not clickable' || 'intercepted'`, line 27 `'Navigation'`,
line 29 `error.name === 'AssertionError' || includes('expect')`, else Unknown. -/
def classify (name msg : String) : ErrorKind :=
  if name = "TimeoutError" ∨ containsS msg "timeout" = true then .Timeout
  else if name = "Error" ∧ containsS msg "Element is not attached" = true then .StaleElement
  else if containsS msg "not visible" = true then .NotVisible
  else if containsS msg "not enabled" = true ∨ containsS msg "disabled" = true then .Disabled
  else if containsS msg "not clickable" = true ∨ containsS msg "intercepted" = true then .NotClickable
  else if containsS msg "Navigation" = true then .NavigationFailure
  else if name = "AssertionError" ∨ containsS msg "expect" = true then .AssertionFailure
  else .Unknown

/-- The three timeout remediation hints (testHelpers.ts lines 43-46);
bullet/emoji markup elided, sentence text kept. -/
def timeoutSuggestions : List String :=
  ["Increase timeout if operation needs more time",
   "Check if element selector is correct",
   "Verify page is fully loaded"]

/-- The three visibility remediation hints (testHelpers.ts lines 48-51). -/
def visibilitySuggestions : List String :=
  ["Check if element is hidden by CSS",
   "Scroll element into view",
   "Wait for animations to complete"]

/-- The suggestions block appended by `enhanceError` (testHelpers.ts lines
42-52): keyed on the raw MESSAGE content, not on the classified kind —
`if (error.message?.includes('timeout'))` then the timeout hints,
`else if (error.message?.includes('not visible'))` the visibility hints,
else nothing. -/
def suggestionsFor (msg : String) : List String :=
  if containsS msg "timeout" = true then timeoutSuggestions
  else if containsS msg "not visible" = true then visibilitySuggestions
  else []

/-- Decimal rendering of the `Date.now()` timestamp embedded in filenames. -/
def natChars (n : Nat) : Str := (toString n).toList

/-- The `.png` filename suffix. -/
def pngExt : Str := ".png".toList

/-- The filename written by `takeScreenshotForStep` (world.ts line 192):
`cleanScenario-cleanStep-timestamp.png` (the constant directory
path segment `./reports/screenshots/` is elided; correlation happens on the
basename). -/
def stepFileName (scenarioName stepName : Str) (ts : Nat) : Str :=
  (cleanNameWorld scenarioName ++ '-' :: cleanNameWorld stepName ++ '-' :: natChars ts) ++ pngExt

/-- The filename written by scenario-level `takeScreenshot` (world.ts lines
173-174): `cleanName-timestamp.png`. -/
def scenarioFileName (name : Str) (ts : Nat) : Str :=
  (cleanNameWorld name ++ '-' :: natChars ts) ++ pngExt

/-- One directory entry of reports/screenshots as seen by the correlator:
a basename plus its mtime (`fs.statSync(...).mtime`). -/
structure ShotFile where
  name : Str
  mtime : Nat
deriving DecidableEq, Repr

/-- Head of the JS stable sort by mtime descending (`(a, b) => b.mtime - a.mtime`,
generateAllureResults.js lines 36-41, then `screenshots[0]`): the first-listed
entry among those with maximal mtime. A stable descending sort keeps the
original order inside each mtime class, so its head is exactly this entry. -/
def pickMostRecent : List ShotFile → Option ShotFile
  | [] => none
  | e :: rest =>
    match pickMostRecent rest with
    | none => some e
    | some b => if e.mtime < b.mtime then some b else some e

/-- The filter predicate of `findScreenshotForStep` (generateAllureResults.js
lines 29-34): the lowercased filename contains the lowercased clean scenario
name and the lowercased clean step name, and the file ends with `.png`. -/
def matchesStep (cleanScenario cleanStep : Str) (f : Str) : Bool :=
  containsL (toLowerL f) (toLowerL cleanScenario) &&
  containsL (toLowerL f) (toLowerL cleanStep) &&
  endsWithL f pngExt

/-- `findScreenshotForStep(scenarioName, stepName, stepIndex)`
(generateAllureResults.js lines 18-44). The directory is `none` when
`fs.existsSync(screenshotDir)` is false, otherwise the list of entries.
The `stepIndex` parameter is declared but never read by the body. The
returned value is the matched basename (the source returns the joined path
of the same file). -/
def findScreenshotForStep (scenarioName stepName : Str) (stepIndex : Nat)
    (dir : Option (List ShotFile)) : Option Str :=
  match dir with
  | none => none
  | some files =>
    let cleanScenario := cleanNameAllure scenarioName
    let cleanStep := cleanNameAllure stepName
    (pickMostRecent (files.filter (fun e => matchesStep cleanScenario cleanStep e.name))).map
      (fun e => e.name)

/-- The screenshot store state: whether the reports/screenshots directory
exists, the basenames of the files inside it, and the keys of the in-memory
metadata index `global.stepScreenshots`. -/
structure ScreenshotStore where
  dirExists : Bool
  files : List Str
  index : List Str
deriving Repr

/-- The extension test of `clearScreenshots` (world.ts line 67):
`file.endsWith('.png') || file.endsWith('.jpg') || file.endsWith('.jpeg')`. -/
def isImageFile (f : Str) : Bool :=
  endsWithL f ".png".toList || endsWithL f ".jpg".toList || endsWithL f ".jpeg".toList

/-- `CustomWorld.clearScreenshots` (world.ts lines 62-75). When the directory
exists it unlinks every image file and logs `files.length` — the number of ALL
entries read from the directory, images or not; when the directory does not
exist it skips deletion and logs nothing (count 0 here). In both cases
`global.stepScreenshots.clear()` empties the index. Returns the new state and
the reported count. -/
def clearScreenshots (s : ScreenshotStore) : ScreenshotStore × Nat :=
  if s.dirExists then
    ({ dirExists := s.dirExists,
       files := s.files.filter (fun f => !(isImageFile f)),
       index := [] },
     s.files.length)
  else
    ({ s with index := [] }, 0)

/-- The per-scenario step cursor carried in `this.parameters`
(world.ts: `scenarioName` and `stepIndex`). -/
structure StepCtx where
  scenarioName : Str
  stepIndex : Nat
deriving DecidableEq, Repr

/-- The `Before` hook's tracker updates (world.ts lines 233-234):
`this.parameters.scenarioName = scenario.pickle.name;
this.parameters.stepIndex = 0`. -/
def startScenario (name : Str) (_c : StepCtx) : StepCtx :=
  { scenarioName := name, stepIndex := 0 }

/-- The `AfterStep` hook's increment (world.ts line 248):
`this.parameters.stepIndex = (this.parameters.stepIndex || 0) + 1`
(the `|| 0` default never fires: the constructor initializes the index to 0). -/
def completeStep (c : StepCtx) : StepCtx :=
  { c with stepIndex := c.stepIndex + 1 }

/-- Availability of `this.page` for a screenshot: `absent` — `this.page` is
undefined (the `if (this.page)` guard fails); `ok` — the page exists and
`page.screenshot` succeeds; `crashed` — the page object exists but the
browser is gone, so `page.screenshot` rejects. -/
inductive PageState
  | absent
  | ok
  | crashed
deriving DecidableEq, Repr

/-- `takeScreenshotForStep` (world.ts lines 187-213): when `this.page` is
falsy it returns `null` without touching the browser; otherwise it calls
`page.screenshot`, which either produces the step file or rejects
(`Except.error`) if the browser has crashed. -/
def takeScreenshotForStep (ps : PageState) (stepName scenarioName : Str)
    (ts : Nat) : Except String (Option Str) :=
  match ps with
  | .absent => .ok none
  | .ok => .ok (some (stepFileName scenarioName stepName ts))
  | .crashed => .error "page.screenshot failed"

/-- Scenario-level `takeScreenshot` (world.ts lines 170-185): same guard and
failure behaviour, scenario-only filename. -/
def takeScreenshot (ps : PageState) (name : Str) (ts : Nat) :
    Except String (Option Str) :=
  match ps with
  | .absent => .ok none
  | .ok => .ok (some (scenarioFileName name ts))
  | .crashed => .error "page.screenshot failed"

/-- A cucumber step result status as seen by the `AfterStep` hook
(`result.status === 'FAILED'`). -/
inductive StepStatus
  | passed
  | failed
  | skipped
deriving DecidableEq, Repr

/-- The `AfterStep` hook (world.ts lines 246-266). It first unconditionally
increments the step index; then, when the step failed or
`SCREENSHOT_ALL_STEPS === 'true'` (`allSteps`), it awaits
`takeScreenshotForStep`. The hook body has NO try/catch, so a rejection of
the screenshot call propagates out of the hook (`Except.error`); the index
increment has already happened either way. Returns the updated cursor and
the hook outcome (captured path or `none`). -/
def afterStepHook (allSteps : Bool) (ps : PageState) (status : StepStatus)
    (stepText : Str) (ts : Nat) (c : StepCtx) :
    StepCtx × Except String (Option Str) :=
  let c2 := completeStep c
  if status = .failed ∨ allSteps = true then
    (c2, takeScreenshotForStep ps stepText c2.scenarioName ts)
  else
    (c2, .ok none)

/-- Outcome of the `After` hook: whether a failure screenshot was produced,
whether the browser ended up closed, and whether an exception was caught and
swallowed on the way. -/
structure AfterOutcome where
  screenshot : Option Str
  browserClosed : Bool
  errorSwallowed : Bool
deriving DecidableEq, Repr

/-- The body of the `After` hook's try block (world.ts lines 270-285): when
the scenario failed, await `takeScreenshot(scenario.pickle.name)`; then
`closeBrowser()`. `closeBrowser` (lines 139-164) catches its own errors
internally (including a force-close fallback), so only the screenshot call
can throw here. -/
def afterHookBody (ps : PageState) (failed : Bool) (name : Str) (ts : Nat) :
    Except String (Option Str) :=
  if failed = true then
    match takeScreenshot ps name ts with
    | .error e => .error e
    | .ok p => .ok p
  else
    .ok none

/-- The `After` hook (world.ts lines 268-301): the body runs inside
try/catch; on catch the error is logged, swallowed, and the browser is
force-closed (`this.browser.close()` in the catch block). The hook itself
therefore always completes and always ends with the browser closed. -/
def afterHook (ps : PageState) (failed : Bool) (name : Str) (ts : Nat) :
    AfterOutcome :=
  match afterHookBody ps failed name ts with
  | .ok p => { screenshot := p, browserClosed := true, errorSwallowed := false }
  | .error _ => { screenshot := none, browserClosed := true, errorSwallowed := true }

/-- A step status in the cucumber JSON report consumed by
generateAllureResults.js (lowercase strings there). -/
inductive ReportStatus
  | passed
  | failed
  | skipped
deriving DecidableEq, Repr

/-- `step.result` of the cucumber JSON report: a status and a duration in
nanoseconds. -/
structure StepResultRec where
  status : ReportStatus
  duration : Nat
deriving DecidableEq, Repr

/-- One step of the report; `result` is `none` when the JSON lacks a
`result` object (`step.result &&` guards in the source). -/
structure ReportStep where
  result : Option StepResultRec
deriving DecidableEq, Repr

/-- `scenario.steps.some(step => step.result && step.result.status === 'failed')`
(generateAllureResults.js line 63), parametrized by the tested status. -/
def anyStepHas (steps : List ReportStep) (st : ReportStatus) : Bool :=
  steps.any (fun s =>
    match s.result with
    | some r => r.status = st
    | none => false)

/-- The scenario status ternary chain (generateAllureResults.js lines 63-64):
failed if some step failed, else skipped if some step skipped, else passed. -/
def scenarioStatus (steps : List ReportStep) : ReportStatus :=
  if anyStepHas steps .failed then .failed
  else if anyStepHas steps .skipped then .skipped
  else .passed

/-- `scenario.steps.reduce((sum, step) => sum + ((step.result && step.result.duration) || 0), 0)`
(generateAllureResults.js line 66). -/
def scenarioDuration (steps : List ReportStep) : Nat :=
  steps.foldl (fun sum s =>
    sum + (match s.result with
           | some r => r.duration
           | none => 0)) 0

/-- The per-step duration contributed to the scenario total:
`(step.result && step.result.duration) || 0` — the step's duration, or 0
when the step has no result. -/
def stepDurOf (s : ReportStep) : Nat :=
  match s.result with
  | some r => r.duration
  | none => 0

/-! ### Substring lemmas for the filename correlation -/

theorem startsWithL_append (p l : Str) : startsWithL (p ++ l) p = true := by
  induction p with
  | nil => simp [startsWithL]
  | cons c ps ih => simp [startsWithL, ih]

theorem containsL_of_startsWithL {s pat : Str} (h : startsWithL s pat = true) :
    containsL s pat = true := by
  cases s with
  | nil =>
    cases pat with
    | nil => rfl
    | cons p ps => simp [startsWithL] at h
  | cons c rest => simp [containsL, h]

theorem containsL_cons {rest pat : Str} (c : Char)
    (h : containsL rest pat = true) : containsL (c :: rest) pat = true := by
  simp [containsL, h]

theorem containsL_append_left (pre : Str) {l pat : Str}
    (h : containsL l pat = true) : containsL (pre ++ l) pat = true := by
  induction pre with
  | nil => simpa using h
  | cons c ps ih => exact containsL_cons c ih

theorem containsL_self_append (pat suf : Str) :
    containsL (pat ++ suf) pat = true :=
  containsL_of_startsWithL (startsWithL_append pat suf)

theorem containsL_mid (pre pat suf : Str) :
    containsL (pre ++ pat ++ suf) pat = true := by
  rw [List.append_assoc]
  exact containsL_append_left pre (containsL_self_append pat suf)

theorem toLowerL_append (a b : Str) :
    toLowerL (a ++ b) = toLowerL a ++ toLowerL b := by
  simp [toLowerL]

theorem endsWithL_append (l pat : Str) : endsWithL (l ++ pat) pat = true := by
  simp only [endsWithL, List.reverse_append]
  exact startsWithL_append pat.reverse l.reverse

theorem pickMostRecent_mem : ∀ {l : List ShotFile} {e : ShotFile},
    pickMostRecent l = some e → e ∈ l := by
  intro l
  induction l with
  | nil => intro e h; simp [pickMostRecent] at h
  | cons a rest ih =>
    intro e h
    unfold pickMostRecent at h
    split at h
    · cases h; exact List.mem_cons_self a rest
    · next b heq =>
      split at h
      · cases h; exact List.mem_cons_of_mem a (ih heq)
      · cases h; exact List.mem_cons_self a rest

/-! ### Normalization invariants -/

theorem noDoubleDash_tail {c : Char} {l : Str}
    (h : noDoubleDash (c :: l) = true) : noDoubleDash l = true := by
  cases l with
  | nil => rfl
  | cons d rest =>
    simp only [noDoubleDash, Bool.and_eq_true] at h
    exact h.2

theorem collapse_noDoubleDash : ∀ l : Str, noDoubleDash (collapse l) = true := by
  intro l
  induction l with
  | nil => rfl
  | cons c rest ih =>
    simp only [collapse]
    split
    · rfl
    · next d tail heq =>
      rw [heq] at ih
      by_cases h : c = '-' ∧ d = '-'
      · rw [if_pos h]; exact ih
      · rw [if_neg h]
        simp only [noDoubleDash, Bool.and_eq_true, Bool.not_eq_true']
        refine ⟨?_, ih⟩
        by_cases h1 : c = '-'
        · by_cases h2 : d = '-'
          · exact absurd ⟨h1, h2⟩ h
          · simp [h1, h2]
        · simp [h1]

/-- `dropTrailingDashes` keeps the head of a nonempty input:
the result is empty or starts with the same character. -/
theorem dropTrailingDashes_head (c : Char) (rest : Str) :
    dropTrailingDashes (c :: rest) = [] ∨
    ∃ r, dropTrailingDashes (c :: rest) = c :: r := by
  simp only [dropTrailingDashes]
  cases dropTrailingDashes rest with
  | nil =>
    by_cases h : c = '-'
    · left; rw [if_pos h]
    · right; exact ⟨[], by rw [if_neg h]⟩
  | cons d tail => right; exact ⟨d :: tail, rfl⟩

theorem dropTrailingDashes_noDoubleDash : ∀ {l : Str},
    noDoubleDash l = true → noDoubleDash (dropTrailingDashes l) = true := by
  intro l
  induction l with
  | nil => intro _; rfl
  | cons c rest ih =>
    intro h
    simp only [dropTrailingDashes]
    split
    · split
      · rfl
      · rfl
    · next d tail hdt =>
      have hrest : noDoubleDash rest = true := noDoubleDash_tail h
      have ihr := ih hrest
      rw [hdt] at ihr
      cases rest with
      | nil => simp [dropTrailingDashes] at hdt
      | cons r0 rest' =>
        have hshape := dropTrailingDashes_head r0 rest'
        rw [hdt] at hshape
        rcases hshape with hnil | ⟨r, hr⟩
        · cases hnil
        · have hd : d = r0 := by
            injection hr
          subst hd
          simp only [noDoubleDash, Bool.and_eq_true] at h ⊢
          exact ⟨h.1, ihr⟩

theorem dropWhile_noDoubleDash : ∀ {l : Str}, noDoubleDash l = true →
    noDoubleDash (l.dropWhile (fun c => c = '-')) = true := by
  intro l
  induction l with
  | nil => intro _; rfl
  | cons c rest ih =>
    intro h
    by_cases hc : c = '-'
    · rw [List.dropWhile_cons_of_pos (by simp [hc])]
      exact ih (noDoubleDash_tail h)
    · rw [List.dropWhile_cons_of_neg (by simp [hc])]
      exact h

theorem dropWhile_headOk (l : Str) :
    headOk (l.dropWhile (fun c => c = '-')) = true := by
  induction l with
  | nil => rfl
  | cons c rest ih =>
    by_cases hc : c = '-'
    · rw [List.dropWhile_cons_of_pos (by simp [hc])]; exact ih
    · rw [List.dropWhile_cons_of_neg (by simp [hc])]
      simp [headOk, hc]

theorem dropTrailingDashes_headOk : ∀ {l : Str}, headOk l = true →
    headOk (dropTrailingDashes l) = true := by
  intro l
  cases l with
  | nil => intro _; rfl
  | cons c rest =>
    intro h
    rcases dropTrailingDashes_head c rest with hnil | ⟨r, hr⟩
    · rw [hnil]; rfl
    · rw [hr]
      simpa [headOk] using h

theorem dropTrailingDashes_lastOk : ∀ l : Str,
    lastOk (dropTrailingDashes l) = true := by
  intro l
  induction l with
  | nil => rfl
  | cons c rest ih =>
    simp only [dropTrailingDashes]
    cases hdt : dropTrailingDashes rest with
    | nil =>
      by_cases hc : c = '-'
      · rw [if_pos hc]; rfl
      · rw [if_neg hc]; simp [lastOk, hc]
    | cons d tail =>
      rw [hdt] at ih
      simpa [lastOk] using ih

theorem collapse_mem : ∀ {l : Str} {x : Char}, x ∈ collapse l → x ∈ l := by
  intro l
  induction l with
  | nil => intro x h; simp [collapse] at h
  | cons c rest ih =>
    intro x h
    simp only [collapse] at h
    split at h
    · simp at h
      simp [h]
    · next d tail hc =>
      by_cases hdd : c = '-' ∧ d = '-'
      · rw [if_pos hdd] at h
        have hx : x ∈ collapse rest := by rw [hc]; exact h
        exact List.mem_cons_of_mem c (ih hx)
      · rw [if_neg hdd] at h
        rcases List.mem_cons.mp h with hx | hx
        · simp [hx]
        · have hx2 : x ∈ collapse rest := by rw [hc]; exact hx
          exact List.mem_cons_of_mem c (ih hx2)

theorem dropTrailingDashes_mem : ∀ {l : Str} {x : Char},
    x ∈ dropTrailingDashes l → x ∈ l := by
  intro l
  induction l with
  | nil => intro x h; simp [dropTrailingDashes] at h
  | cons c rest ih =>
    intro x h
    simp only [dropTrailingDashes] at h
    split at h
    · split at h
      · simp at h
      · simp at h
        simp [h]
    · next d tail hdt =>
      rcases List.mem_cons.mp h with hx | hx
      · simp [hx]
      · have hx2 : x ∈ dropTrailingDashes rest := by
          rw [hdt]
          exact hx
        exact List.mem_cons_of_mem c (ih hx2)

theorem sanitize_ok {l : Str} {x : Char} (h : x ∈ sanitize l) :
    (isAlnumChar x || x = '-') = true := by
  simp only [sanitize, List.mem_map] at h
  rcases h with ⟨c, _, hc⟩
  by_cases ha : isAlnumChar c
  · rw [if_pos ha] at hc; subst hc; simp [ha]
  · rw [if_neg ha] at hc; subst hc; simp

theorem cleanNameWorld_allOk (s : Str) : allOkChars (cleanNameWorld s) = true := by
  simp only [allOkChars, List.all_eq_true]
  intro x hx
  apply sanitize_ok
  have h1 : x ∈ dropTrailingDashes ((collapse (sanitize s)).dropWhile (fun c => c = '-')) := hx
  have h2 := dropTrailingDashes_mem h1
  have h3 : x ∈ collapse (sanitize s) := List.dropWhile_sublist (fun c => c = '-') |>.mem h2
  exact collapse_mem h3

/-! ### Claim theorems -/

/-- C2: every raw error whose message contains the substring "timeout" is
classified Timeout, regardless of the error's name or of any other
substrings in the message — the first branch of the classification chain
matches on the message alone. -/
theorem claim_C2_timeout_rule (name msg : String)
    (h : containsS msg "timeout" = true) : classify name msg = ErrorKind.Timeout := by
  unfold classify
  rw [if_pos (Or.inr h)]

/-- C2 witness: a concrete message containing "timeout" (and the
"waiting for locator" sub-note) is classified Timeout. -/
theorem claim_C2_witness :
    containsS "timeout waiting for locator" "timeout" = true ∧
    classify "SomeError" "timeout waiting for locator" = ErrorKind.Timeout :=
  ⟨by decide, claim_C2_timeout_rule "SomeError" "timeout waiting for locator" (by decide)⟩

/-- C3 counterexample: the claim says the StaleElement rule conditions only
on the message substring, but the source also requires
`error.name === 'Error'`: an error named "TypeError" whose message is
exactly "Element is not attached" (which contains the StaleElement marker,
does not contain "timeout", and whose name is not a timeout-signaling name)
is classified Unknown, not StaleElement. -/
theorem claim_C3_counterexample :
    containsS "Element is not attached" "Element is not attached" = true ∧
    containsS "Element is not attached" "timeout" = false ∧
    ("TypeError" : String) ≠ "TimeoutError" ∧
    classify "TypeError" "Element is not attached" = ErrorKind.Unknown ∧
    ErrorKind.Unknown ≠ ErrorKind.StaleElement := by
  refine ⟨by decide, by decide, by decide, by decide, by decide⟩

/-- C3 (amended): StaleElement classification requires BOTH the message
substring "Element is not attached" AND the error's name to be exactly
"Error" (in addition to the timeout rule not matching first); conversely,
every error classified StaleElement has name "Error". -/
theorem claim_C3_stale_element :
    (∀ msg : String, containsS msg "Element is not attached" = true →
        containsS msg "timeout" = false →
        classify "Error" msg = ErrorKind.StaleElement) ∧
    (∀ (name msg : String), classify name msg = ErrorKind.StaleElement →
        name = "Error") := by
  constructor
  · intro msg h1 h2
    unfold classify
    rw [if_neg, if_pos ⟨rfl, h1⟩]
    rintro (hn | hm)
    · exact absurd hn (by decide)
    · rw [h2] at hm
      exact absurd hm (by decide)
  · intro name msg h
    unfold classify at h
    by_cases h1 : name = "TimeoutError" ∨ containsS msg "timeout" = true
    · rw [if_pos h1] at h; exact ErrorKind.noConfusion h
    rw [if_neg h1] at h
    by_cases h2 : name = "Error" ∧ containsS msg "Element is not attached" = true
    · exact h2.1
    rw [if_neg h2] at h
    by_cases h3 : containsS msg "not visible" = true
    · rw [if_pos h3] at h; exact ErrorKind.noConfusion h
    rw [if_neg h3] at h
    by_cases h4 : containsS msg "not enabled" = true ∨ containsS msg "disabled" = true
    · rw [if_pos h4] at h; exact ErrorKind.noConfusion h
    rw [if_neg h4] at h
    by_cases h5 : containsS msg "not clickable" = true ∨ containsS msg "intercepted" = true
    · rw [if_pos h5] at h; exact ErrorKind.noConfusion h
    rw [if_neg h5] at h
    by_cases h6 : containsS msg "Navigation" = true
    · rw [if_pos h6] at h; exact ErrorKind.noConfusion h
    rw [if_neg h6] at h
    by_cases h7 : name = "AssertionError" ∨ containsS msg "expect" = true
    · rw [if_pos h7] at h; exact ErrorKind.noConfusion h
    rw [if_neg h7] at h
    exact ErrorKind.noConfusion h

/-- C3 witness: the amended rule at a concrete input — name "Error" with
the stale-element message is classified StaleElement. -/
theorem claim_C3_witness :
    classify "Error" "Element is not attached" = ErrorKind.StaleElement :=
  claim_C3_stale_element.1 "Element is not attached" (by decide) (by decide)

/-- C4 counterexample: an error classified Timeout by its NAME alone
(name "TimeoutError", message "operation failed" which does not contain
"timeout") carries NO suggestions block, contradicting "every failure
classified as Timeout carries the three timeout suggestions". -/
theorem claim_C4_counterexample :
    classify "TimeoutError" "operation failed" = ErrorKind.Timeout ∧
    suggestionsFor "operation failed" = [] := by
  refine ⟨by decide, by decide⟩

/-- C4 (amended): the suggestions block is keyed on the raw MESSAGE, not on
the classified kind: a message containing "timeout" gets the three timeout
suggestions (and is also classified Timeout); otherwise a message
containing "not visible" gets the three visibility suggestions, whatever
the kind; otherwise there is no suggestions block. In particular a
StaleElement-classified failure whose message mentions "not visible"
carries the visibility suggestions. -/
theorem claim_C4_suggestions (name msg : String) :
    (containsS msg "timeout" = true →
        suggestionsFor msg = timeoutSuggestions ∧ classify name msg = ErrorKind.Timeout) ∧
    (containsS msg "timeout" = false → containsS msg "not visible" = true →
        suggestionsFor msg = visibilitySuggestions) ∧
    (containsS msg "timeout" = false → containsS msg "not visible" = false →
        suggestionsFor msg = []) ∧
    (classify "Error" "Element is not attached and not visible" = ErrorKind.StaleElement ∧
     suggestionsFor "Element is not attached and not visible" = visibilitySuggestions) := by
  refine ⟨?_, ?_, ?_, by decide, by decide⟩
  · intro h
    refine ⟨?_, claim_C2_timeout_rule name msg h⟩
    unfold suggestionsFor
    rw [if_pos h]
  · intro h1 h2
    unfold suggestionsFor
    rw [if_neg (by simp [h1]), if_pos h2]
  · intro h1 h2
    unfold suggestionsFor
    rw [if_neg (by simp [h1]), if_neg (by simp [h2])]

/-- C4 witness: the amended statement at a concrete input — a message
containing "timeout" gets the timeout suggestions and kind Timeout. -/
theorem claim_C4_witness :
    suggestionsFor "timeout here" = timeoutSuggestions ∧
    classify "E" "timeout here" = ErrorKind.Timeout :=
  (claim_C4_suggestions "E" "timeout here").1 (by decide)

/-- C5 counterexample: the `AfterStep` hook has no try/catch, so an error
raised by the failure-capture there (page object present but the browser
crashed, step failed) propagates out of the hook instead of being
swallowed. -/
theorem claim_C5_counterexample :
    (afterStepHook false PageState.crashed StepStatus.failed ("s".toList) 0
        ⟨"S".toList, 0⟩).2 = Except.error "page.screenshot failed" := rfl

/-- C5 (amended): capture returns null without throwing when the page
object is absent; the scenario-end `After` hook swallows capture errors
(logged, browser still closed, hook never propagates); but the
`AfterStep` hook has no try/catch, so a capture error there propagates. -/
theorem claim_C5_best_effort :
    (∀ (stepName scenarioName : Str) (ts : Nat),
        takeScreenshotForStep PageState.absent stepName scenarioName ts = Except.ok none) ∧
    (∀ (name : Str) (ts : Nat),
        takeScreenshot PageState.absent name ts = Except.ok none) ∧
    (∀ (ps : PageState) (failed : Bool) (name : Str) (ts : Nat),
        (afterHook ps failed name ts).browserClosed = true) ∧
    (∀ (name : Str) (ts : Nat),
        (afterHook PageState.crashed true name ts).errorSwallowed = true ∧
        (afterHook PageState.crashed true name ts).browserClosed = true) := by
  refine ⟨fun _ _ _ => rfl, fun _ _ => rfl, ?_, fun _ _ => ⟨rfl, rfl⟩⟩
  intro ps failed name ts
  cases ps <;> cases failed <;> rfl

/-- C7 counterexample: a directory holding a non-image file "notes.txt" and
one screenshot "shot.png": the first call deletes only the image but
reports 2 (the total number of files, not the number deleted), and the
second call reports 1, not 0 — refuting both "returns the count of files
deleted" and "the second call returns 0". -/
theorem claim_C7_counterexample :
    (clearScreenshots ⟨true, ["notes.txt".toList, "shot.png".toList], []⟩).2 = 2 ∧
    (clearScreenshots ⟨true, ["notes.txt".toList, "shot.png".toList], []⟩).1.files
      = ["notes.txt".toList] ∧
    (clearScreenshots
      (clearScreenshots ⟨true, ["notes.txt".toList, "shot.png".toList], []⟩).1).2 = 1 ∧
    (1 : Nat) ≠ 0 := by
  refine ⟨by decide, by decide, by decide, by decide⟩

/-- C7 (amended): `clearScreenshots` deletes every image file and clears
the in-memory index, but the count it reports is the total number of
directory entries (all file types); called twice, the second call reports
the number of non-image files left — 0 exactly when every file was an
image; on an empty or non-existent directory it reports 0 without error. -/
theorem claim_C7_clear_behavior (s : ScreenshotStore) :
    (clearScreenshots s).1.index = [] ∧
    (s.dirExists = true →
        (clearScreenshots s).2 = s.files.length ∧
        (clearScreenshots s).1.files = s.files.filter (fun f => !(isImageFile f)) ∧
        (clearScreenshots s).1.files.all (fun f => !(isImageFile f)) = true ∧
        (clearScreenshots (clearScreenshots s).1).2
          = (s.files.filter (fun f => !(isImageFile f))).length) ∧
    (s.dirExists = false → (clearScreenshots s).2 = 0) ∧
    (s.files = [] → (clearScreenshots s).2 = 0) ∧
    ((s.dirExists = true ∧ ∀ f ∈ s.files, isImageFile f = true) →
        (clearScreenshots (clearScreenshots s).1).2 = 0) := by
  by_cases hd : s.dirExists = true
  · refine ⟨by simp [clearScreenshots, hd], ?_, ?_, ?_, ?_⟩
    · intro _
      refine ⟨by simp [clearScreenshots, hd], by simp [clearScreenshots, hd], ?_, ?_⟩
      · simp only [clearScreenshots, hd, if_true, List.all_eq_true]
        intro f hf
        exact (List.mem_filter.mp hf).2
      · simp [clearScreenshots, hd]
    · intro hfalse; rw [hd] at hfalse; exact absurd hfalse (by decide)
    · intro hnil; simp [clearScreenshots, hd, hnil]
    · rintro ⟨_, hall⟩
      simp only [clearScreenshots, hd, if_true]
      have hempty : s.files.filter (fun f => !(isImageFile f)) = [] := by
        rw [List.filter_eq_nil_iff]
        intro f hf
        simp [hall f hf]
      simp [hempty]
  · refine ⟨by simp [clearScreenshots, hd], ?_, ?_, ?_, ?_⟩
    · intro htrue; exact absurd htrue hd
    · intro _; simp [clearScreenshots, hd]
    · intro _; simp [clearScreenshots, hd]
    · rintro ⟨htrue, _⟩; exact absurd htrue hd

/-- C7 witness: the amended statement at a concrete store whose directory
exists and contains only images: first call reports 2 and empties the
directory, second call reports 0. -/
theorem claim_C7_witness :
    (clearScreenshots ⟨true, ["a.png".toList, "b.jpg".toList], ["k".toList]⟩).2 = 2 ∧
    (clearScreenshots
      (clearScreenshots ⟨true, ["a.png".toList, "b.jpg".toList], ["k".toList]⟩).1).2 = 0 := by
  have h := claim_C7_clear_behavior ⟨true, ["a.png".toList, "b.jpg".toList], ["k".toList]⟩
  exact ⟨(h.2.1 rfl).1, h.2.2.2.2 ⟨rfl, by decide⟩⟩

/-- C8: scenario start resets the step index to 0 and records the scenario
name; each step completion increments the index by exactly 1,
unconditionally of the step status (the `AfterStep` hook increments before
looking at the result); three completions after `startScenario X` give
index 3 with name X, and after n completions the index is n (monotone in
the number of completed steps). -/
theorem claim_C8_step_lifecycle (X : Str) (c : StepCtx) :
    (startScenario X c).stepIndex = 0 ∧
    (startScenario X c).scenarioName = X ∧
    (completeStep (completeStep (completeStep (startScenario X c)))).stepIndex = 3 ∧
    (completeStep (completeStep (completeStep (startScenario X c)))).scenarioName = X ∧
    (∀ (allSteps : Bool) (ps : PageState) (status : StepStatus) (t : Str)
        (ts : Nat) (c2 : StepCtx),
        (afterStepHook allSteps ps status t ts c2).1.stepIndex = c2.stepIndex + 1 ∧
        (afterStepHook allSteps ps status t ts c2).1.scenarioName = c2.scenarioName) ∧
    (∀ n : Nat, (completeStep^[n] (startScenario X c)).stepIndex = n) := by
  refine ⟨rfl, rfl, rfl, rfl, ?_, ?_⟩
  · intro allSteps ps status t ts c2
    unfold afterStepHook
    split <;> exact ⟨rfl, rfl⟩
  · intro n
    induction n with
    | zero => rfl
    | succ m ih =>
      rw [Function.iterate_succ_apply']
      simp [completeStep, ih]

/-- Boolean `any` over report steps, in claim language: some step has a
result carrying the given status. -/
theorem anyStepHas_iff (steps : List ReportStep) (st : ReportStatus) :
    anyStepHas steps st = true ↔
    ∃ s ∈ steps, ∃ r, s.result = some r ∧ r.status = st := by
  simp only [anyStepHas, List.any_eq_true]
  constructor
  · rintro ⟨s, hs, hp⟩
    refine ⟨s, hs, ?_⟩
    cases hres : s.result with
    | none => rw [hres] at hp; simp at hp
    | some r =>
      rw [hres] at hp
      simp only [decide_eq_true_eq] at hp
      exact ⟨r, rfl, hp⟩
  · rintro ⟨s, hs, r, hres, hst⟩
    refine ⟨s, hs, ?_⟩
    rw [hres]
    simpa using hst

/-- `foldl` with additive accumulator equals the sum of the mapped list. -/
theorem foldl_add_eq (f : ReportStep → Nat) :
    ∀ (l : List ReportStep) (a : Nat),
      l.foldl (fun sum s => sum + f s) a = a + (l.map f).sum := by
  intro l
  induction l with
  | nil => intro a; simp
  | cons s rest ih =>
    intro a
    simp only [List.foldl_cons, List.map_cons, List.sum_cons]
    rw [ih]
    omega

/-- C9: the correlator's unified scenario status is failed iff some step's
result is failed; otherwise skipped iff some step's result is skipped;
otherwise passed; and the scenario duration is the sum of the per-step
durations with missing step results contributing 0. -/
theorem claim_C9_status_duration (steps : List ReportStep) :
    (scenarioStatus steps = ReportStatus.failed ↔
        ∃ s ∈ steps, ∃ r, s.result = some r ∧ r.status = ReportStatus.failed) ∧
    (scenarioStatus steps = ReportStatus.skipped ↔
        (¬(∃ s ∈ steps, ∃ r, s.result = some r ∧ r.status = ReportStatus.failed) ∧
         ∃ s ∈ steps, ∃ r, s.result = some r ∧ r.status = ReportStatus.skipped)) ∧
    (scenarioStatus steps = ReportStatus.passed ↔
        (¬(∃ s ∈ steps, ∃ r, s.result = some r ∧ r.status = ReportStatus.failed) ∧
         ¬(∃ s ∈ steps, ∃ r, s.result = some r ∧ r.status = ReportStatus.skipped))) ∧
    scenarioDuration steps = (steps.map stepDurOf).sum := by
  have hf := anyStepHas_iff steps .failed
  have hs := anyStepHas_iff steps .skipped
  have hdur : scenarioDuration steps = (steps.map stepDurOf).sum := by
    unfold scenarioDuration
    have h := foldl_add_eq stepDurOf steps 0
    simp only [Nat.zero_add] at h
    rw [← h]
    rfl
  by_cases h1 : anyStepHas steps .failed
  · have hP : ∃ s ∈ steps, ∃ r, s.result = some r ∧ r.status = ReportStatus.failed :=
      hf.mp h1
    refine ⟨?_, ?_, ?_, hdur⟩
    · simp [scenarioStatus, h1, hP]
    · simp only [scenarioStatus, h1, if_true]
      constructor
      · intro hcontra; exact absurd hcontra (by decide)
      · rintro ⟨hnP, _⟩; exact absurd hP hnP
    · simp only [scenarioStatus, h1, if_true]
      constructor
      · intro hcontra; exact absurd hcontra (by decide)
      · rintro ⟨hnP, _⟩; exact absurd hP hnP
  · have hnP : ¬∃ s ∈ steps, ∃ r, s.result = some r ∧ r.status = ReportStatus.failed :=
      fun hc => h1 (hf.mpr hc)
    by_cases h2 : anyStepHas steps .skipped
    · have hQ : ∃ s ∈ steps, ∃ r, s.result = some r ∧ r.status = ReportStatus.skipped :=
        hs.mp h2
      refine ⟨?_, ?_, ?_, hdur⟩
      · simp only [scenarioStatus, h1, if_false, h2, if_true]
        constructor
        · intro hcontra; exact absurd hcontra (by decide)
        · intro hc; exact absurd (hf.mpr hc) h1
      · simp [scenarioStatus, h1, h2, hnP, hQ]
      · simp only [scenarioStatus, h1, if_false, h2, if_true]
        constructor
        · intro hcontra; exact absurd hcontra (by decide)
        · rintro ⟨_, hnQ⟩; exact absurd hQ hnQ
    · have hnQ : ¬∃ s ∈ steps, ∃ r, s.result = some r ∧ r.status = ReportStatus.skipped :=
        fun hc => h2 (hs.mpr hc)
      refine ⟨?_, ?_, ?_, hdur⟩
      · simp only [scenarioStatus, h1, if_false, h2]
        constructor
        · intro hcontra; exact absurd hcontra (by decide)
        · intro hc; exact absurd (hf.mpr hc) h1
      · simp only [scenarioStatus, h1, if_false, h2]
        constructor
        · intro hcontra; exact absurd hcontra (by decide)
        · rintro ⟨_, hc⟩; exact absurd (hs.mpr hc) h2
      · simp [scenarioStatus, h1, h2, hnP, hnQ]

/-- C9 witness: a two-step scenario (one passed in 2ns, one failed in 3ns)
has unified status failed and duration 5. -/
theorem claim_C9_witness :
    scenarioStatus [⟨some ⟨ReportStatus.passed, 2⟩⟩, ⟨some ⟨ReportStatus.failed, 3⟩⟩]
      = ReportStatus.failed ∧
    scenarioDuration [⟨some ⟨ReportStatus.passed, 2⟩⟩, ⟨some ⟨ReportStatus.failed, 3⟩⟩]
      = 5 := by
  have h := claim_C9_status_duration
    [⟨some ⟨ReportStatus.passed, 2⟩⟩, ⟨some ⟨ReportStatus.failed, 3⟩⟩]
  refine ⟨h.1.mpr ?_, by decide⟩
  exact ⟨⟨some ⟨ReportStatus.failed, 3⟩⟩, by simp, ⟨ReportStatus.failed, 3⟩, rfl, rfl⟩

/-- C6: the producer's and the correlator's normalizations are the same
function; its output has no character outside `[A-Za-z0-9-]`, no two
consecutive dashes, and no leading or trailing dash; and
normalize("Contact | Blankfactor!!") = "Contact-Blankfactor". -/
theorem claim_C6_normalization (s : Str) :
    cleanNameWorld s = cleanNameAllure s ∧
    allOkChars (cleanNameWorld s) = true ∧
    noDoubleDash (cleanNameWorld s) = true ∧
    headOk (cleanNameWorld s) = true ∧
    lastOk (cleanNameWorld s) = true ∧
    cleanNameWorld ("Contact | Blankfactor!!".toList) = "Contact-Blankfactor".toList := by
  refine ⟨rfl, cleanNameWorld_allOk s, ?_, ?_, ?_, by decide⟩
  · exact dropTrailingDashes_noDoubleDash (dropWhile_noDoubleDash (collapse_noDoubleDash _))
  · exact dropTrailingDashes_headOk (dropWhile_headOk _)
  · exact dropTrailingDashes_lastOk _

/-- `stepFileName` split after the normalized scenario segment. -/
theorem stepFileName_shape₁ (scen step : Str) (ts : Nat) :
    stepFileName scen step ts =
    cleanNameWorld scen ++
      (('-' :: cleanNameWorld step ++ '-' :: natChars ts) ++ pngExt) := by
  simp [stepFileName, List.append_assoc]

/-- `stepFileName` split around the normalized step segment. -/
theorem stepFileName_shape₂ (scen step : Str) (ts : Nat) :
    stepFileName scen step ts =
    (cleanNameWorld scen ++ ['-']) ++
      (cleanNameWorld step ++ (('-' :: natChars ts) ++ pngExt)) := by
  simp [stepFileName, List.append_assoc]

/-- A file produced by `takeScreenshotForStep` passes the correlator's own
filter for the same scenario and step names. -/
theorem matchesStep_self (scen step : Str) (ts : Nat) :
    matchesStep (cleanNameAllure scen) (cleanNameAllure step)
      (stepFileName scen step ts) = true := by
  have hca : cleanNameAllure = cleanNameWorld := rfl
  simp only [matchesStep, Bool.and_eq_true, hca]
  refine ⟨⟨?_, ?_⟩, ?_⟩
  · rw [stepFileName_shape₁]
    simp only [toLowerL_append]
    exact containsL_self_append _ _
  · rw [stepFileName_shape₂]
    simp only [toLowerL_append]
    exact containsL_append_left _ (containsL_self_append _ _)
  · exact endsWithL_append
      (cleanNameWorld scen ++ '-' :: cleanNameWorld step ++ '-' :: natChars ts) pngExt

/-- C1: capture/correlation round-trip — `takeScreenshotForStep` on a live
page writes a file whose name contains both the normalized scenario name
and the normalized step name, and `findScreenshotForStep` for the same
scenario and step names, over a directory containing only that file,
returns that file (for every step index argument and mtime). -/
theorem claim_C1_roundtrip (scenarioName stepName : Str) (ts mt i : Nat) :
    takeScreenshotForStep PageState.ok stepName scenarioName ts
      = Except.ok (some (stepFileName scenarioName stepName ts)) ∧
    containsL (stepFileName scenarioName stepName ts)
      (cleanNameWorld scenarioName) = true ∧
    containsL (stepFileName scenarioName stepName ts)
      (cleanNameWorld stepName) = true ∧
    findScreenshotForStep scenarioName stepName i
        (some [⟨stepFileName scenarioName stepName ts, mt⟩])
      = some (stepFileName scenarioName stepName ts) := by
  refine ⟨rfl, ?_, ?_, ?_⟩
  · rw [stepFileName_shape₁]
    exact containsL_self_append _ _
  · rw [stepFileName_shape₂]
    exact containsL_append_left _ (containsL_self_append _ _)
  · have hm := matchesStep_self scenarioName stepName ts
    simp [findScreenshotForStep, List.filter_cons, hm, pickMostRecent]

/-- C10: the correlator's lookup ignores its `stepIndex` argument — any two
index values give the same result; a returned file always ends in `.png`
(non-png entries are never matched); the result depends only on the `.png`
entries of the directory; and two steps whose normalized names contain one
another ("Click" and "Click button") are matched to the same file. -/
theorem claim_C10_index_irrelevant (scen step : Str) (i j : Nat)
    (dir : Option (List ShotFile)) :
    findScreenshotForStep scen step i dir = findScreenshotForStep scen step j dir ∧
    (∀ f : Str, findScreenshotForStep scen step i dir = some f →
        endsWithL f pngExt = true) ∧
    (∀ files : List ShotFile,
        findScreenshotForStep scen step i (some files)
          = findScreenshotForStep scen step i
              (some (files.filter (fun e => endsWithL e.name pngExt)))) ∧
    (findScreenshotForStep ("S".toList) ("Click".toList) i
        (some [⟨stepFileName ("S".toList) ("Click button".toList) 7, 5⟩])
      = some (stepFileName ("S".toList) ("Click button".toList) 7) ∧
     findScreenshotForStep ("S".toList) ("Click button".toList) i
        (some [⟨stepFileName ("S".toList) ("Click button".toList) 7, 5⟩])
      = some (stepFileName ("S".toList) ("Click button".toList) 7)) := by
  refine ⟨rfl, ?_, ?_, rfl, rfl⟩
  · intro f h
    cases dir with
    | none => simp [findScreenshotForStep] at h
    | some files =>
      simp only [findScreenshotForStep, Option.map_eq_some'] at h
      obtain ⟨e, he, hname⟩ := h
      have hmem := pickMostRecent_mem he
      have hp := (List.mem_filter.mp hmem).2
      simp only [matchesStep, Bool.and_eq_true] at hp
      rw [← hname]
      exact hp.2
  · intro files
    simp only [findScreenshotForStep]
    have hq : files.filter
          (fun e => matchesStep (cleanNameAllure scen) (cleanNameAllure step) e.name)
        = (files.filter (fun e => endsWithL e.name pngExt)).filter
            (fun e => matchesStep (cleanNameAllure scen) (cleanNameAllure step) e.name) := by
      rw [List.filter_filter]
      apply List.filter_congr
      intro e _
      cases hm : matchesStep (cleanNameAllure scen) (cleanNameAllure step) e.name with
      | false => simp [hm]
      | true =>
        have hpng : endsWithL e.name pngExt = true := by
          simp only [matchesStep, Bool.and_eq_true] at hm
          exact hm.2
        simp [hm, hpng]
    rw [hq]

/-- C10 witness: a concrete matched lookup whose result ends in `.png`,
obtained by applying the index-irrelevance theorem. -/
theorem claim_C10_witness :
    endsWithL (stepFileName ("S".toList) ("Click".toList) 3) pngExt = true :=
  (claim_C10_index_irrelevant ("S".toList) ("Click".toList) 0 1
      (some [⟨stepFileName ("S".toList) ("Click".toList) 3, 9⟩])).2.1
    (stepFileName ("S".toList) ("Click".toList) 3) (by rfl)

end BDD
